import Mathlib

/-!
Formal model of MatFile.h: a streaming encoder that writes one MAT file per
registered variable and patches three length/count fields after every write.

The embedding is byte-level.  A FILE opened with mode wb is modelled as a
byte store (a function from offsets to byte values), a length, and a current
position; fwrite overwrites bytes at the current position and extends the
length, fseek moves the position, ftell reads it.  The modelled platform is
LP64 (Linux x86-64): sizeof(int) = 4, sizeof(short) = 2, sizeof(size_t) = 8,
sizeof(long) = 8, little-endian.  In this model fopen success and the text
of the informational header are environment inputs; fwrite and fseek on an
open file always transfer everything (no disk errors are modelled).
Passing a NULL FILE pointer to fwrite or fclose, and calling a member
function through a NULL object pointer, are undefined behavior in C++; the
model makes these outcomes explicit UB results.
-/

namespace MatFileModel

/-- Little-endian byte encoding of a machine integer value of w bytes.
Only the low 8*w bits of the value are kept, exactly as an fwrite of the
in-memory representation would store them. -/
def leBytes : Nat → Nat → List Nat
  | 0, _ => []
  | w + 1, v => v % 256 :: leBytes w (v / 256)

/-- Little-endian decoding of w bytes of a byte store starting at off. -/
def readLE (d : Nat → Nat) (off : Nat) : Nat → Nat
  | 0 => 0
  | w + 1 => d off + 256 * readLE d (off + 1) w

/-- Rounding a byte count up to the next multiple of 8, the computation the
source performs with the idiom x += 8 - x % 8 guarded by x % 8. -/
def roundUp8 (x : Nat) : Nat := if x % 8 = 0 then x else x + (8 - x % 8)

/-- A FILE opened for binary writing: byte contents, size, and position.
Bytes beyond the current length read as 0, matching the POSIX rule that a
gap produced by seeking past the end reads back as zero bytes. -/
structure Stream where
  data : Nat → Nat
  len : Nat
  pos : Nat

/-- The empty file just after fopen(path, mode wb). -/
def Stream.empty : Stream := ⟨fun _ => 0, 0, 0⟩

/-- fwrite of a byte list at the current position: overwrites, extends the
length when writing past the end, and advances the position. -/
def Stream.write (s : Stream) (bs : List Nat) : Stream :=
  ⟨fun i => if s.pos ≤ i ∧ i < s.pos + bs.length then bs.getD (i - s.pos) 0 else s.data i,
   max s.len (s.pos + bs.length),
   s.pos + bs.length⟩

/-- fseek(fp, p, SEEK_SET); on a writable file this always succeeds. -/
def Stream.seek (s : Stream) (p : Nat) : Stream := ⟨s.data, s.len, p⟩

/-- The 10 supported scalar element kinds.  On the modelled LP64 platform
they correspond to the C++ types char, unsigned char, short, unsigned
short, int, unsigned int, long (or long long), unsigned long (or unsigned
long long), float, double. -/
inductive ElemKind
  | i8 | u8 | i16 | u16 | i32 | u32 | i64 | u64 | f32 | f64
deriving DecidableEq, Fintype

/-- A template argument T of MatFile::Variable: one of the 10 supported
scalar kinds, or any other C++ type (for which every is_* trait below is
false and registration of the encoder fails at the metadata step). -/
inductive ElemT
  | scalar (k : ElemKind)
  | other
deriving DecidableEq

/-- sizeof(T) on the modelled platform.  The value for the unsupported kind
is arbitrary (1): no code path ever writes an element of such a variable,
because its constructor always leaves the file pointer NULL. -/
def sizeofT : ElemT → Nat
  | .scalar .i8 => 1
  | .scalar .u8 => 1
  | .scalar .i16 => 2
  | .scalar .u16 => 2
  | .scalar .i32 => 4
  | .scalar .u32 => 4
  | .scalar .i64 => 8
  | .scalar .u64 => 8
  | .scalar .f32 => 4
  | .scalar .f64 => 8
  | .other => 1

/- The is_* trait specializations of the source, resolved on LP64: exactly
the trait of the own kind of a supported scalar type holds. -/

def is_double (t : ElemT) : Bool := t = .scalar .f64

def is_float (t : ElemT) : Bool := t = .scalar .f32

def is_int8 (t : ElemT) : Bool := t = .scalar .i8

def is_int16 (t : ElemT) : Bool := t = .scalar .i16

def is_int32 (t : ElemT) : Bool := t = .scalar .i32

def is_int64 (t : ElemT) : Bool := t = .scalar .i64

def is_uint8 (t : ElemT) : Bool := t = .scalar .u8

def is_uint16 (t : ElemT) : Bool := t = .scalar .u16

def is_uint32 (t : ElemT) : Bool := t = .scalar .u32

def is_uint64 (t : ElemT) : Bool := t = .scalar .u64

/- MAT file data type tags, from the defines at the top of MatFile.h. -/

def miINT8 : Nat := 1
def miUINT8 : Nat := 2
def miINT16 : Nat := 3
def miUINT16 : Nat := 4
def miINT32 : Nat := 5
def miUINT32 : Nat := 6
def miSINGLE : Nat := 7
def miDOUBLE : Nat := 9
def miINT64 : Nat := 12
def miUINT64 : Nat := 13
def miMATRIX : Nat := 14

/- Sizes of matrix subelements, from the defines in MatFile.h. -/

def ARRAY_FLAGS_SIZE : Nat := 16
def DIM_ARRAY_SIZE : Nat := 16
def ARRAY_NAME_TAG_SIZE : Nat := 8
def RE_TAG_SIZE : Nat := 8

/-- The static table mapping a MatLab data type to an array class tag. -/
def mi2mx : List Nat := [0, 8, 9, 10, 11, 12, 13, 7, 0, 6, 0, 0, 14, 15, 0, 0]

/-- The if/else chain of write_meta_data that determines the array flags
class element; none models the final else branch that fails construction
for an unsupported element type. -/
def miTypeOf (t : ElemT) : Option Nat :=
  if is_double t then some miDOUBLE
  else if is_float t then some miSINGLE
  else if is_int64 t then some miINT64
  else if is_uint64 t then some miUINT64
  else if is_int32 t then some miINT32
  else if is_uint32 t then some miUINT32
  else if is_int16 t then some miINT16
  else if is_uint16 t then some miUINT16
  else if is_int8 t then some miINT8
  else if is_uint8 t then some miUINT8
  else none

/-- The resolved pair of numeric type tag and array class tag for a
supported element kind, as used by write_meta_data: the type tag goes in
the real data sub-tag and mi2mx of it goes in the array flags payload. -/
def resolve (k : ElemKind) : Option (Nat × Nat) :=
  (miTypeOf (.scalar k)).map fun mt => (mt, mi2mx.getD mt 0)

/-- The offsets the Variable constructor hard-codes: _dim_tag_offset = 0xA4
points at the element count value of the dimensions subelement and
_mat_tag_offset = 0x84 points at the total length value of the outer
matrix tag. -/
def dim_tag_offset : Nat := 0xA4

/-- See dim_tag_offset. -/
def mat_tag_offset : Nat := 0x84

/-- The 124 byte text header buffer: memset to zero, then the first
min(124, length) bytes of the descriptive string are copied in.  The
string itself (creator name and a wall-clock timestamp) is an environment
input of the model. -/
def headerBytes (hdrText : List Nat) : List Nat :=
  hdrText.take 124 ++ List.replicate (124 - min 124 hdrText.length) 0

/-- write_header: the 124 byte text header, the version short 0x0100 and
the endian short made of the characters M and I, written little-endian.
With an open file all three fwrite calls transfer fully, so the member
returns true; its stream effect is modelled here. -/
def write_header (s : Stream) (hdrText : List Nat) : Stream :=
  ((s.write (headerBytes hdrText)).write (leBytes 2 0x0100)).write (leBytes 2 0x4D49)

/-- write_meta_data: writes the outer matrix tag, array flags, dimensions,
array name and real part subelements.  Returns none when the element type
is unsupported (the else branch returning false, reached after the first
16 bytes were already written); otherwise returns the stream together with
_mat_tag_size and _re_tag_offset (ftell minus sizeof(int)). -/
def write_meta_data (t : ElemT) (nm : List Nat) (s : Stream) :
    Option (Stream × Nat × Nat) :=
  let bytes0 := ARRAY_FLAGS_SIZE + DIM_ARRAY_SIZE + ARRAY_NAME_TAG_SIZE + nm.length + RE_TAG_SIZE
  let bytes := if nm.length % 8 = 0 then bytes0 else bytes0 + (8 - nm.length % 8)
  let s1 := s.write (leBytes 4 miMATRIX ++ leBytes 4 bytes ++ leBytes 4 miUINT32 ++ leBytes 4 8)
  match miTypeOf t with
  | none => none
  | some mt =>
    let s2 := s1.write (leBytes 4 (mi2mx.getD mt 0) ++ leBytes 4 0)
    let s3 := s2.write (leBytes 4 miINT32 ++ leBytes 4 8 ++ leBytes 4 1 ++ leBytes 4 0)
    let s4 := s3.write (leBytes 4 miINT8 ++ leBytes 4 nm.length)
    let s5 := s4.write nm
    let s6 := if nm.length % 8 = 0 then s5 else s5.write (List.replicate (8 - nm.length % 8) 0)
    let s7 := s6.write (leBytes 4 mt ++ leBytes 4 0)
    some (s7, bytes, s7.pos - 4)

/-- The state of MatFile::Variable.  The file pointer is none when the
constructor closed the file (metadata failure) and also stands for the
stream being owned; _dim_tag_offset and _mat_tag_offset are the constants
above.  The template argument is kept so that the dynamic_cast in
MatFile::write can be modelled. -/
structure Variable where
  count : Nat
  fp : Option Stream
  mat_tag_size : Nat
  re_tag_offset : Nat
  name : List Nat
  elemT : ElemT

/-- Outcome of running the Variable constructor: either a constructed
object or undefined behavior. -/
inductive CtorResult
  | ub
  | mk (v : Variable)

/-- The constructed Variable, when construction did not hit UB. -/
def CtorResult.varOf : CtorResult → Option Variable
  | .ub => none
  | .mk v => some v

/-- The Variable constructor.  openOk tells whether fopen succeeded; when
it fails the constructor stores NULL in _fp and then calls write_header,
whose first fwrite receives the NULL FILE pointer: undefined behavior.
When the metadata step fails (unsupported element type) the file is closed
and _fp is set to NULL; _re_tag_offset is left unset in the source
and is modelled as 0, a value no code path ever reads because _fp is NULL. -/
def Variable.init (t : ElemT) (nm : List Nat) (openOk : Bool) (hdrText : List Nat) :
    CtorResult :=
  if openOk then
    let s1 := write_header Stream.empty hdrText
    match write_meta_data t nm s1 with
    | none =>
      .mk { count := 0, fp := none,
            mat_tag_size := if nm.length % 8 = 0
              then ARRAY_FLAGS_SIZE + DIM_ARRAY_SIZE + ARRAY_NAME_TAG_SIZE + nm.length + RE_TAG_SIZE
              else ARRAY_FLAGS_SIZE + DIM_ARRAY_SIZE + ARRAY_NAME_TAG_SIZE + nm.length + RE_TAG_SIZE
                   + (8 - nm.length % 8),
            re_tag_offset := 0, name := nm, elemT := t }
    | some (s2, mts, ro) =>
      .mk { count := 0, fp := some s2, mat_tag_size := mts, re_tag_offset := ro,
            name := nm, elemT := t }
  else .ub

/-- update_counters: record ftell, rewrite the outer total length (as a
size_t, 8 bytes on LP64), the element count (size_t) and the real part
payload length (size_t) at the three recorded offsets, seek back, and when
the total is not a multiple of 8 append zero padding past the end of the
payload and seek back again.  All fseek and fwrite calls succeed in this
model, so the result flag is true. -/
def Variable.update_counters (v : Variable) (s : Stream) : Bool × Stream :=
  let curr := s.pos
  let bytes0 := v.mat_tag_size + v.count * sizeofT v.elemT
  let rem := bytes0 % 8
  let bytes := if rem = 0 then bytes0 else bytes0 + (8 - rem)
  let s1 := (s.seek mat_tag_offset).write (leBytes 8 bytes)
  let s2 := (s1.seek dim_tag_offset).write (leBytes 8 v.count)
  let s3 := (s2.seek v.re_tag_offset).write (leBytes 8 (v.count * sizeofT v.elemT))
  let s4 := s3.seek curr
  if rem = 0 then (true, s4)
  else (true, (s4.write (List.replicate (8 - rem) 0)).seek curr)

/-- Variable::write for a single element: fails when _fp is NULL, otherwise
appends the sizeof(T) bytes of the element at the current position,
increments _count, and runs update_counters.  The element is given by its
in-memory byte representation. -/
def Variable.write (v : Variable) (e : List Nat) : Bool × Variable :=
  match v.fp with
  | none => (false, v)
  | some s =>
    let s1 := s.write e
    let v1 : Variable := { v with count := v.count + 1 }
    let r := v1.update_counters s1
    (r.1, { v1 with fp := some r.2 })

/-- A placeholder Variable used as the default of list indexing; it is only
ever produced at indices proven to be in bounds, so it never escapes. -/
def noVar : Variable :=
  { count := 0, fp := none, mat_tag_size := 0, re_tag_offset := 0, name := [], elemT := .other }

/-- The Variable produced by a constructor whose metadata step failed for
an unsupported element kind: the file was closed, _fp is NULL, and
_mat_tag_size holds the bytes value computed before the failure. -/
def deadOther (nm : List Nat) : Variable :=
  { count := 0, fp := none,
    mat_tag_size := if nm.length % 8 = 0
      then ARRAY_FLAGS_SIZE + DIM_ARRAY_SIZE + ARRAY_NAME_TAG_SIZE + nm.length + RE_TAG_SIZE
      else ARRAY_FLAGS_SIZE + DIM_ARRAY_SIZE + ARRAY_NAME_TAG_SIZE + nm.length + RE_TAG_SIZE
           + (8 - nm.length % 8),
    re_tag_offset := 0, name := nm, elemT := .other }

/-- The MatFile registry: the readiness flag, the name to id map and the
polymorphic variable collection.  The output directory string and the
running mode are not modelled: the directory only feeds fopen, whose
success is the openOk input of create. -/
structure MatFile where
  is_ready : Bool
  name2id : List (List Nat × Int)
  vars : List Variable

/-- The MatFile constructor: _is_ready is the result of the stat call on
the output directory, an environment input. -/
def MatFile.init (dirExists : Bool) : MatFile :=
  { is_ready := dirExists, name2id := [], vars := [] }

/-- std::map find on the name to id map. -/
def lookupName : List (List Nat × Int) → List Nat → Option Int
  | [], _ => none
  | (k, v) :: t, nm => if k = nm then some v else lookupName t nm

/-- Outcome of MatFile::create. -/
inductive CreateResult
  | ub
  | ok (id : Int) (m : MatFile)

/-- The returned id, when create did not hit UB. -/
def CreateResult.rid : CreateResult → Option Int
  | .ub => none
  | .ok i _ => some i

/-- The registry state after create, when create did not hit UB. -/
def CreateResult.reg : CreateResult → Option MatFile
  | .ub => none
  | .ok _ m => some m

/-- Whether the most recently pushed variable has a NULL file pointer. -/
def CreateResult.lastVarFpIsNone : CreateResult → Option Bool
  | .ub => none
  | .ok _ m =>
    some (match m.vars.getLast? with
          | some v => v.fp.isNone
          | none => false)

/-- MatFile::create: returns -1 when the registry is not ready, the stored
id when the name is already registered, and otherwise inserts the name,
constructs the encoder (propagating constructor UB) and appends it,
returning the new sequential id.  Note that a failed encoder construction
still yields the new non-negative id. -/
def MatFile.create (m : MatFile) (t : ElemT) (nm : List Nat) (openOk : Bool)
    (hdrText : List Nat) : CreateResult :=
  if !m.is_ready then .ok (-1) m
  else
    let id : Int := m.vars.length
    match lookupName m.name2id nm with
    | some existing => .ok existing m
    | none =>
      match Variable.init t nm openOk hdrText with
      | .ub => .ub
      | .mk v =>
        .ok id { m with
                 name2id := m.name2id ++ [(nm, id)]
                 vars := m.vars ++ [v] }

/-- Outcome of MatFile::write. -/
inductive WriteResult
  | ub
  | ok (b : Bool) (m : MatFile)

/-- The boolean result, when the write did not hit UB. -/
def WriteResult.res : WriteResult → Option Bool
  | .ub => none
  | .ok b _ => some b

/-- MatFile::write by id, for a caller whose value has static type t given
by its byte representation e.  The signed id is converted to size_t for
the bounds check (so every negative id fails it); in bounds, the stored
variable_base pointer is downcast with dynamic_cast to the Variable
instance of t, and the result is dereferenced without a NULL check: a type
mismatch makes the cast yield NULL and the call var->write(value) is
undefined behavior. -/
def MatFile.write_id (m : MatFile) (t : ElemT) (id : Int) (e : List Nat) : WriteResult :=
  if !m.is_ready then .ok false m
  else
    let uid : Nat := (id % (2 : Int) ^ 64).toNat
    if m.vars.length ≤ uid then .ok false m
    else
      let v := m.vars.getD uid noVar
      if v.elemT = t then
        let r := v.write e
        .ok r.1 { m with vars := m.vars.set uid r.2 }
      else .ub

/-- MatFile::write by name: fails when the registry is not ready or the
name is unknown, and otherwise forwards to write by id. -/
def MatFile.write_name (m : MatFile) (t : ElemT) (nm : List Nat) (e : List Nat) : WriteResult :=
  if !m.is_ready then .ok false m
  else
    match lookupName m.name2id nm with
    | none => .ok false m
    | some id => m.write_id t id e

/-- A sequence of single-element writes, conjoining the success flags. -/
def writeAllOk : Variable → List (List Nat) → Bool × Variable
  | v, [] => (true, v)
  | v, e :: es =>
    let p := v.write e
    let q := writeAllOk p.2 es
    (p.1 && q.1, q.2)

/-- The variable obtained by constructing a fresh encoder for kind k and
then performing the given sequence of writes. -/
def afterWrites (k : ElemKind) (nm hdrText : List Nat) (es : List (List Nat)) :
    Option Variable :=
  ((Variable.init (.scalar k) nm true hdrText).varOf).map fun v0 => (writeAllOk v0 es).2

/-- Conjoined success of the write sequence on a fresh encoder. -/
def writesSucceed (k : ElemKind) (nm hdrText : List Nat) (es : List (List Nat)) :
    Option Bool :=
  ((Variable.init (.scalar k) nm true hdrText).varOf).map fun v0 => (writeAllOk v0 es).1

/-- The byte of the file of a variable at a given offset (0 when closed). -/
def fileByte (v : Variable) (i : Nat) : Nat :=
  match v.fp with
  | none => 0
  | some s => s.data i

/-- The 4 byte little-endian value of the dimension count field of the
file of a variable, decoded at _dim_tag_offset. -/
def dimFieldOf (v : Variable) : Option Nat :=
  v.fp.map fun s => readLE s.data dim_tag_offset 4

/-- Names used by the concrete instances: the bytes of c, ints and x. -/
def cName : List Nat := [99]

/-- See cName. -/
def intsName : List Nat := [105, 110, 116, 115]

/-- See cName. -/
def xName : List Nat := [120]

/-- Structural invariant of a live encoder for kind k and name nm after N
single-element writes: the fields of the Variable, the stream position
(end of the logical payload) and the file length.  The metadata block ends
at offset 184 + roundUp8 of the name length, and _mat_tag_size is the
fixed 48 byte subelement overhead plus the padded name. -/
def InvCore (k : ElemKind) (nm : List Nat) (N : Nat) (v : Variable) : Prop :=
  v.elemT = .scalar k ∧ v.count = N ∧
  v.mat_tag_size = 48 + roundUp8 nm.length ∧
  v.re_tag_offset = 180 + roundUp8 nm.length ∧
  ∃ s, v.fp = some s ∧
    s.pos = 184 + roundUp8 nm.length + N * sizeofT (.scalar k) ∧
    s.len = 184 + roundUp8 nm.length + roundUp8 (N * sizeofT (.scalar k))

/-- Contents of the three patched regions after N writes, N at least 1:
each patch is an 8 byte little-endian store of a size_t value at the
recorded offset; of the real part patch only the 4 bytes of the length
field itself are stable (the following 4 bytes fall into the payload and
may be overwritten by later element writes). -/
def InvFields (k : ElemKind) (nm : List Nat) (N : Nat) (v : Variable) : Prop :=
  ∃ s, v.fp = some s ∧
    (∀ j, j < 8 → s.data (132 + j) =
      (leBytes 8 (roundUp8 (48 + roundUp8 nm.length + N * sizeofT (.scalar k)))).getD j 0) ∧
    (∀ j, j < 8 → s.data (164 + j) = (leBytes 8 N).getD j 0) ∧
    (∀ j, j < 4 → s.data (180 + roundUp8 nm.length + j) =
      (leBytes 8 (N * sizeofT (.scalar k))).getD j 0)

/-- A ready registry with one char variable named c, used by witnesses. -/
def m8a : MatFile := MatFile.init true

/-- See m8a. -/
def m8b : MatFile := ((m8a.create (.scalar .i8) cName true []).reg).getD m8a

/-! Helper lemmas. -/

lemma leBytes_length (w : Nat) : ∀ v : Nat, (leBytes w v).length = w := by
  induction w with
  | zero => intro v; rfl
  | succ w ih => intro v; simp [leBytes, ih]

lemma readLE_matches (w : Nat) :
    ∀ (W v off : Nat) (d : Nat → Nat), w ≤ W →
      (∀ j, j < w → d (off + j) = (leBytes W v).getD j 0) →
      readLE d off w = v % 256 ^ w := by
  induction w with
  | zero => intro W v off d _ _; simp [readLE, Nat.mod_one]
  | succ w ih =>
    intro W v off d hW h
    obtain ⟨W2, rfl⟩ : ∃ W2, W = W2 + 1 := ⟨W - 1, by omega⟩
    have hd0 : d off = v % 256 := by
      have := h 0 (by omega)
      simpa [leBytes] using this
    have htail : ∀ j, j < w → d (off + 1 + j) = (leBytes W2 (v / 256)).getD j 0 := by
      intro j hj
      have := h (j + 1) (by omega)
      rw [show off + (j + 1) = off + 1 + j by omega] at this
      simpa [leBytes] using this
    have hrec := ih W2 (v / 256) (off + 1) d (by omega) htail
    rw [readLE, hd0, hrec, pow_succ, Nat.mul_comm (256 ^ w) 256, Nat.mod_mul]

lemma roundUp8_facts (x : Nat) :
    x ≤ roundUp8 x ∧ roundUp8 x % 8 = 0 ∧ roundUp8 x < x + 8 := by
  unfold roundUp8; split <;> omega

lemma roundUp8_self (x : Nat) (h : x % 8 = 0) : roundUp8 x = x := by
  unfold roundUp8; simp [h]

lemma roundUp8_of_ne (x : Nat) (h : ¬x % 8 = 0) : roundUp8 x = x + (8 - x % 8) := by
  unfold roundUp8; rw [if_neg h]

lemma lookupName_append (l : List (List Nat × Int)) (nm : List Nat) (i : Int)
    (h : lookupName l nm = none) : lookupName (l ++ [(nm, i)]) nm = some i := by
  induction l with
  | nil => simp [lookupName]
  | cons p t ih =>
    obtain ⟨a, b⟩ := p
    by_cases hp : a = nm
    · rw [lookupName, if_pos hp] at h; simp at h
    · rw [lookupName, if_neg hp] at h
      rw [List.cons_append, lookupName, if_neg hp]
      exact ih h

lemma headerBytes_length (h : List Nat) : (headerBytes h).length = 124 := by
  simp [headerBytes]

lemma Stream.write_pos2 (s : Stream) (bs : List Nat) : (s.write bs).pos = s.pos + bs.length :=
  rfl

lemma Stream.write_len2 (s : Stream) (bs : List Nat) :
    (s.write bs).len = max s.len (s.pos + bs.length) :=
  rfl

lemma Stream.seek_pos2 (s : Stream) (p : Nat) : (s.seek p).pos = p := rfl

lemma Stream.seek_len2 (s : Stream) (p : Nat) : (s.seek p).len = s.len := rfl

lemma Stream.empty_pos : Stream.empty.pos = 0 := rfl

lemma Stream.empty_len : Stream.empty.len = 0 := rfl

lemma roundUp8_zero : roundUp8 0 = 0 := rfl

lemma miTypeOf_scalar (k : ElemKind) : ∃ mt : Nat, miTypeOf (.scalar k) = some mt := by
  cases k <;> exact ⟨_, rfl⟩

lemma fresh_spec (k : ElemKind) (nm hdrText : List Nat) :
    ∃ v0, (Variable.init (.scalar k) nm true hdrText).varOf = some v0 ∧ InvCore k nm 0 v0 := by
  obtain ⟨mt, hmt⟩ := miTypeOf_scalar k
  unfold Variable.init write_meta_data
  simp only [hmt, if_true, CtorResult.varOf]
  have h8 := roundUp8_facts nm.length
  refine ⟨_, rfl, rfl, rfl, ?_, ?_, ?_⟩
  · show (if nm.length % 8 = 0 then _ else _) = 48 + roundUp8 nm.length
    unfold roundUp8 ARRAY_FLAGS_SIZE DIM_ARRAY_SIZE ARRAY_NAME_TAG_SIZE RE_TAG_SIZE
    split <;> omega
  · show (Stream.write _ _).pos - 4 = 180 + roundUp8 nm.length
    by_cases hn : nm.length % 8 = 0 <;>
      simp only [write_header, hn, if_true, if_false, ite_true, ite_false,
        Stream.write_pos2, Stream.seek_pos2, Stream.empty_pos,
        List.length_append, leBytes_length, headerBytes_length, List.length_replicate] <;>
      unfold roundUp8 <;> split <;> omega
  · refine ⟨_, rfl, ?_, ?_⟩ <;>
      by_cases hn : nm.length % 8 = 0 <;>
        simp only [write_header, hn, if_true, if_false, ite_true, ite_false,
          Stream.write_pos2, Stream.write_len2, Stream.seek_pos2, Stream.seek_len2,
          Stream.empty_pos, Stream.empty_len, Nat.zero_mul, Nat.mul_zero, roundUp8_zero,
          List.length_append, leBytes_length, headerBytes_length, List.length_replicate] <;>
      unfold roundUp8 <;> split <;> omega

lemma data_after_write_out (s : Stream) (bs : List Nat) (i : Nat)
    (h : i < s.pos ∨ s.pos + bs.length ≤ i) :
    (s.write bs).data i = s.data i := by
  have hn : ¬(s.pos ≤ i ∧ i < s.pos + bs.length) := by omega
  simp [Stream.write, hn]

lemma data_after_write_in (s : Stream) (bs : List Nat) (i : Nat)
    (h1 : s.pos ≤ i) (h2 : i < s.pos + bs.length) :
    (s.write bs).data i = bs.getD (i - s.pos) 0 := by
  simp [Stream.write, h1, h2]

lemma Stream.seek_data2 (s : Stream) (p : Nat) : (s.seek p).data = s.data := rfl

lemma sizeofT_pos (k : ElemKind) : 1 ≤ sizeofT (.scalar k) := by
  cases k <;> decide

lemma update_spec (cnt M ro : Nat) (tv : ElemT) (nmv : List Nat) (fpv : Option Stream)
    (w : Stream)
    (hmts8 : M % 8 = 0) (hro176 : 176 ≤ ro) (hC1 : 1 ≤ cnt * sizeofT tv)
    (hwpos : w.pos = ro + 4 + cnt * sizeofT tv)
    (hwlenA : w.len ≤ ro + 4 + roundUp8 (cnt * sizeofT tv))
    (hwlenB : w.pos ≤ w.len) :
    ∃ s2, Variable.update_counters ⟨cnt, fpv, M, ro, nmv, tv⟩ w = (true, s2) ∧
      s2.pos = w.pos ∧
      s2.len = ro + 4 + roundUp8 (cnt * sizeofT tv) ∧
      (∀ j, j < 8 → s2.data (132 + j) =
        (leBytes 8 (roundUp8 (M + cnt * sizeofT tv))).getD j 0) ∧
      (∀ j, j < 8 → s2.data (164 + j) = (leBytes 8 cnt).getD j 0) ∧
      (∀ j, j < 4 → s2.data (ro + j) =
        (leBytes 8 (cnt * sizeofT tv)).getD j 0) := by
  have hrC := roundUp8_facts (cnt * sizeofT tv)
  have hrMC := roundUp8_facts (M + cnt * sizeofT tv)
  have hmo : mat_tag_offset = 132 := rfl
  have hdo : dim_tag_offset = 164 := rfl
  unfold Variable.update_counters
  by_cases hrem : (M + cnt * sizeofT tv) % 8 = 0
  · simp only [if_pos hrem]
    have hc8 : roundUp8 (cnt * sizeofT tv) = cnt * sizeofT tv :=
      roundUp8_self _ (by omega)
    have hbr : roundUp8 (M + cnt * sizeofT tv) = M + cnt * sizeofT tv :=
      roundUp8_self _ hrem
    rw [hbr]
    refine ⟨_, rfl, ?_, ?_, ?_, ?_, ?_⟩
    · simp only [Stream.seek_pos2]
    · simp only [Stream.seek_len2, Stream.write_len2, Stream.seek_pos2,
        leBytes_length, hmo, hdo]
      omega
    · intro j hj
      rw [Stream.seek_data2,
        data_after_write_out _ _ _ (by simp only [Stream.seek_pos2]; omega),
        Stream.seek_data2,
        data_after_write_out _ _ _ (by simp only [Stream.seek_pos2, hdo]; omega),
        Stream.seek_data2,
        data_after_write_in _ _ _ (by simp only [Stream.seek_pos2, hmo]; omega)
          (by simp only [Stream.seek_pos2, hmo, leBytes_length]; omega),
        Stream.seek_pos2, hmo, Nat.add_sub_cancel_left]
    · intro j hj
      rw [Stream.seek_data2,
        data_after_write_out _ _ _ (by simp only [Stream.seek_pos2]; omega),
        Stream.seek_data2,
        data_after_write_in _ _ _ (by simp only [Stream.seek_pos2, hdo]; omega)
          (by simp only [Stream.seek_pos2, hdo, leBytes_length]; omega),
        Stream.seek_pos2, hdo, Nat.add_sub_cancel_left]
    · intro j hj
      rw [Stream.seek_data2,
        data_after_write_in _ _ _ (by simp only [Stream.seek_pos2]; omega)
          (by simp only [Stream.seek_pos2, leBytes_length]; omega),
        Stream.seek_pos2, Nat.add_sub_cancel_left]
  · simp only [if_neg hrem]
    have h48 : (M + cnt * sizeofT tv) % 8 = cnt * sizeofT tv % 8 := by omega
    have hc8 : roundUp8 (cnt * sizeofT tv) =
        cnt * sizeofT tv + (8 - cnt * sizeofT tv % 8) :=
      roundUp8_of_ne _ (by omega)
    have hbr : M + cnt * sizeofT tv + (8 - (M + cnt * sizeofT tv) % 8) =
        roundUp8 (M + cnt * sizeofT tv) := (roundUp8_of_ne _ hrem).symm
    rw [hbr]
    refine ⟨_, rfl, ?_, ?_, ?_, ?_, ?_⟩
    · simp only [Stream.seek_pos2]
    · simp only [Stream.seek_len2, Stream.write_len2, Stream.seek_pos2,
        leBytes_length, List.length_replicate, hmo, hdo]
      omega
    · intro j hj
      rw [Stream.seek_data2,
        data_after_write_out _ _ _ (by simp only [Stream.seek_pos2]; omega),
        Stream.seek_data2,
        data_after_write_out _ _ _ (by simp only [Stream.seek_pos2]; omega),
        Stream.seek_data2,
        data_after_write_out _ _ _ (by simp only [Stream.seek_pos2, hdo]; omega),
        Stream.seek_data2,
        data_after_write_in _ _ _ (by simp only [Stream.seek_pos2, hmo]; omega)
          (by simp only [Stream.seek_pos2, hmo, leBytes_length]; omega),
        Stream.seek_pos2, hmo, Nat.add_sub_cancel_left]
    · intro j hj
      rw [Stream.seek_data2,
        data_after_write_out _ _ _ (by simp only [Stream.seek_pos2]; omega),
        Stream.seek_data2,
        data_after_write_out _ _ _ (by simp only [Stream.seek_pos2]; omega),
        Stream.seek_data2,
        data_after_write_in _ _ _ (by simp only [Stream.seek_pos2, hdo]; omega)
          (by simp only [Stream.seek_pos2, hdo, leBytes_length]; omega),
        Stream.seek_pos2, hdo, Nat.add_sub_cancel_left]
    · intro j hj
      rw [Stream.seek_data2,
        data_after_write_out _ _ _ (by simp only [Stream.seek_pos2]; omega),
        Stream.seek_data2,
        data_after_write_in _ _ _ (by simp only [Stream.seek_pos2]; omega)
          (by simp only [Stream.seek_pos2, leBytes_length]; omega),
        Stream.seek_pos2, Nat.add_sub_cancel_left]

lemma write_step (k : ElemKind) (nm e : List Nat) (N : Nat) (v : Variable)
    (hc : InvCore k nm N v) (he : e.length = sizeofT (.scalar k)) :
    (v.write e).1 = true ∧ InvCore k nm (N + 1) (v.write e).2 ∧
      InvFields k nm (N + 1) (v.write e).2 := by
  obtain ⟨ht, hcnt, hmts, hro, s, hfp, hpos, hlen⟩ := hc
  have hz := sizeofT_pos k
  have hrL := roundUp8_facts nm.length
  have hrN := roundUp8_facts (N * sizeofT (ElemT.scalar k))
  have hrN1 := roundUp8_facts ((N + 1) * sizeofT (ElemT.scalar k))
  have hmul : (N + 1) * sizeofT (ElemT.scalar k) =
      N * sizeofT (ElemT.scalar k) + sizeofT (ElemT.scalar k) := Nat.succ_mul N _
  simp only [Variable.write, hfp]
  simp only [ht, hcnt, hmts, hro]
  obtain ⟨s2, heq, hp2, hl2, hA, hB, hC⟩ :=
    update_spec (N + 1) (48 + roundUp8 nm.length) (180 + roundUp8 nm.length)
      (ElemT.scalar k) v.name (some s) (s.write e)
      (by omega) (by omega) (by omega)
      (by simp only [Stream.write_pos2, hpos, he]; omega)
      (by simp only [Stream.write_len2, Stream.write_pos2, hlen, hpos, he]; omega)
      (by simp only [Stream.write_len2, Stream.write_pos2]; omega)
  rw [heq]
  refine ⟨rfl, ⟨rfl, rfl, rfl, rfl, s2, rfl, ?_, ?_⟩, s2, rfl, ?_, hB, hC⟩
  · rw [hp2]; simp only [Stream.write_pos2, hpos, he]; omega
  · rw [hl2]; omega
  · exact hA

lemma writeAll_inv (k : ElemKind) (nm : List Nat) (es : List (List Nat)) :
    ∀ (N : Nat) (v : Variable), InvCore k nm N v →
      (∀ e ∈ es, e.length = sizeofT (.scalar k)) →
      (writeAllOk v es).1 = true ∧
        InvCore k nm (N + es.length) (writeAllOk v es).2 ∧
        (1 ≤ es.length → InvFields k nm (N + es.length) (writeAllOk v es).2) := by
  induction es with
  | nil =>
    intro N v hc _
    exact ⟨rfl, by simpa using hc, fun h => absurd h (by simp)⟩
  | cons e es ih =>
    intro N v hc hlen
    obtain ⟨hb, hc1, hf1⟩ := write_step k nm e N v hc (hlen e (List.mem_cons_self e es))
    obtain ⟨hb2, hc2, hf2⟩ :=
      ih (N + 1) (v.write e).2 hc1 (fun x hx => hlen x (List.mem_cons_of_mem e hx))
    have harith : N + (e :: es).length = N + 1 + es.length := by
      rw [List.length_cons]; omega
    refine ⟨?_, ?_, ?_⟩
    · have hsplit : (writeAllOk v (e :: es)).1 =
          ((v.write e).1 && (writeAllOk (v.write e).2 es).1) := rfl
      rw [hsplit, hb, hb2]; rfl
    · rw [harith]; exact hc2
    · intro _
      rw [harith]
      rcases es with _ | ⟨f, fs⟩
      · simpa using hf1
      · exact hf2 (by simp)

lemma after_writes_spec (k : ElemKind) (nm hdrText : List Nat) (es : List (List Nat))
    (hlen : ∀ e ∈ es, e.length = sizeofT (.scalar k)) (hne : 1 ≤ es.length) :
    writesSucceed k nm hdrText es = some true ∧
    ∃ v s, afterWrites k nm hdrText es = some v ∧ v.fp = some s ∧
      v.re_tag_offset = 180 + roundUp8 nm.length ∧
      s.len = 184 + roundUp8 nm.length + roundUp8 (es.length * sizeofT (.scalar k)) ∧
      (∀ j, j < 8 → s.data (132 + j) =
        (leBytes 8 (roundUp8 (48 + roundUp8 nm.length +
          es.length * sizeofT (.scalar k)))).getD j 0) ∧
      (∀ j, j < 8 → s.data (164 + j) = (leBytes 8 es.length).getD j 0) ∧
      (∀ j, j < 4 → s.data (180 + roundUp8 nm.length + j) =
        (leBytes 8 (es.length * sizeofT (.scalar k))).getD j 0) := by
  obtain ⟨v0, hv0, hc0⟩ := fresh_spec k nm hdrText
  obtain ⟨hb, hc, hf⟩ := writeAll_inv k nm es 0 v0 hc0 hlen
  rw [Nat.zero_add] at hc
  obtain ⟨ht, hcnt, hmts, hro, s, hfp, hpos, hlen2⟩ := hc
  obtain ⟨s2, hfp2, hA, hB, hC⟩ := hf hne
  rw [Nat.zero_add] at hA hB hC
  rw [hfp] at hfp2
  have hss : s = s2 := by injection hfp2
  subst hss
  constructor
  · unfold writesSucceed
    rw [hv0]
    simp [hb]
  · exact ⟨(writeAllOk v0 es).2, s, by unfold afterWrites; rw [hv0]; rfl,
      hfp, hro, hlen2, hA, hB, hC⟩

/-! Claim theorems. -/

set_option maxRecDepth 4000 in
/-- C1: the claim says a write through a valid handle or registered name
with a value of a different element kind returns failure and leaves the
file untouched.  The code instead dereferences the NULL result of the
failed dynamic_cast: with an int variable registered at handle 0, a double
write by handle and by name both reach undefined behavior, not a false
return. -/
theorem c1_type_confusion_is_ub :
    (((MatFile.init true).create (.scalar .i32) intsName true []).reg).map
        (fun m => (m.write_id (.scalar .f64) 0 (List.replicate 8 0),
                   m.write_name (.scalar .f64) intsName (List.replicate 8 0))) =
      some (WriteResult.ub, WriteResult.ub) := rfl

set_option maxRecDepth 4000 in
/-- C2: the claim says a counter patch changes only the three 4 byte patch
points plus padding, leaving adjacent sub-tag fields unchanged.  On the
modelled LP64 platform each patch stores 8 bytes (a size_t), so after one
successful write to a char variable named c the array flags sub-tag type
byte at offset 136 changes from 6 to 0 and the name sub-tag type byte at
offset 168 changes from 1 to 0. -/
theorem c2_patch_clobbers_adjacent_subtags :
    ((Variable.init (.scalar .i8) cName true []).varOf).map
        (fun v0 => (fileByte v0 136, fileByte v0 168, (v0.write [97]).1,
                    fileByte (v0.write [97]).2 136, fileByte (v0.write [97]).2 168)) =
      some (6, 1, true, 0, 0) := rfl

/-- C3 counterexample: with a ready registry, create of an unsupported
element kind returns the non-negative handle 0 even though the encoder
construction failed (its file pointer is NULL), contradicting the claim
that a failed construction yields the negative invalid-handle sentinel. -/
theorem c3_counterexample :
    (((MatFile.init true).create .other xName true []).rid = some 0) ∧
    (((MatFile.init true).create .other xName true []).lastVarFpIsNone = some true) ∧
    ¬(0 : Int) < 0 :=
  ⟨rfl, rfl, by decide⟩

/-- C3 amended: create returns the sentinel -1 exactly when the registry is
not ready; when the registry is ready and the name is new, create returns
the next sequential non-negative handle even when the encoder construction
fails (unsupported element kind), and the dead encoder keeps a NULL file
pointer so that its writes later return false. -/
theorem c3_create_amended (m : MatFile) (t : ElemT) (nm hdrText : List Nat) :
    (m.is_ready = false → m.create t nm true hdrText = .ok (-1) m) ∧
    (m.is_ready = true → lookupName m.name2id nm = none →
      (m.create .other nm true hdrText).rid = some (m.vars.length : Int) ∧
      (0 : Int) ≤ (m.vars.length : Int) ∧
      (m.create .other nm true hdrText).lastVarFpIsNone = some true) := by
  constructor
  · intro h
    unfold MatFile.create
    rw [h, if_pos (by decide)]
  · intro hr hl
    have hred : m.create .other nm true hdrText =
        .ok (m.vars.length : Int)
          { m with name2id := m.name2id ++ [(nm, (m.vars.length : Int))],
                   vars := m.vars ++ [deadOther nm] } := by
      unfold MatFile.create
      rw [hr, if_neg (by decide), hl]
      rfl
    rw [hred]
    refine ⟨rfl, by omega, ?_⟩
    simp only [CreateResult.lastVarFpIsNone]
    rw [List.getLast?_concat]
    rfl

/-- C3 witness for the amended statement. -/
theorem c3_create_amended_witness :
    ((MatFile.init false).create (.scalar .f32) xName true [] =
      .ok (-1) (MatFile.init false)) ∧
    (((MatFile.init true).create .other xName true []).rid =
        some ((MatFile.init true).vars.length : Int) ∧
      (0 : Int) ≤ ((MatFile.init true).vars.length : Int) ∧
      ((MatFile.init true).create .other xName true []).lastVarFpIsNone = some true) :=
  ⟨(c3_create_amended (MatFile.init false) (.scalar .f32) xName []).1 rfl,
   (c3_create_amended (MatFile.init true) ElemT.other xName []).2 rfl rfl⟩

/-- C4: the claim says a failed fopen makes construction fail cleanly with
the encoder not-ready and later writes returning false.  In the code a
NULL result of fopen is stored unchecked and write_header passes it to
fwrite, which is undefined behavior; the model therefore yields the UB
outcome for the constructor and for create, not a clean failure. -/
theorem c4_open_failure_is_ub :
    Variable.init (.scalar .f64) intsName false [] = .ub ∧
    (MatFile.init true).create (.scalar .f64) intsName false [] = .ub :=
  ⟨rfl, rfl⟩

/-- C9: the type resolver is total on the 10 supported kinds and the
resolved pairs of numeric type tag and array class tag are injective. -/
theorem c9_resolver_injective :
    (∀ k : ElemKind, (resolve k).isSome = true) ∧
    (∀ k1 k2 : ElemKind, resolve k1 = resolve k2 → k1 = k2) :=
  ⟨by decide, by decide⟩

/-- C9 witness. -/
theorem c9_resolver_injective_witness :
    (resolve ElemKind.f64).isSome = true ∧ ElemKind.i8 = ElemKind.i8 :=
  ⟨c9_resolver_injective.1 ElemKind.f64,
   c9_resolver_injective.2 ElemKind.i8 ElemKind.i8 rfl⟩

/-- C10: on a ready registry, a write through any negative handle that fits
in a C int returns false and changes nothing: the signed id is converted
to size_t, so the bounds check rejects it before any dereference, for any
realizable variable count. -/
theorem c10_negative_handle (m : MatFile) (t : ElemT) (id : Int) (e : List Nat)
    (hr : m.is_ready = true) (hneg : id < 0) (hrange : -(2 ^ 31) ≤ id)
    (hsize : m.vars.length < 2 ^ 63) :
    m.write_id t id e = .ok false m := by
  have hb : m.vars.length ≤ (id % (2 : Int) ^ 64).toNat := by omega
  unfold MatFile.write_id
  rw [hr, if_neg (by decide), if_pos hb]

/-- C10 witness. -/
theorem c10_negative_handle_witness :
    (MatFile.init true).is_ready = true ∧ (-1 : Int) < 0 ∧ -(2 ^ 31) ≤ (-1 : Int) ∧
    (MatFile.init true).vars.length < 2 ^ 63 ∧
    (MatFile.init true).write_id (.scalar .i8) (-1) [0] = .ok false (MatFile.init true) :=
  ⟨rfl, by decide, by decide, by decide,
   c10_negative_handle (MatFile.init true) (.scalar .i8) (-1) [0] rfl (by decide)
     (by decide) (by decide)⟩

/-- C8: registering an already registered name returns the original handle
and leaves the registry unchanged (no second stream, whatever the second
element kind or environment), and a write through a registered name is the
very same operation as the write through its handle. -/
theorem c8_name_and_handle_agree (m m2 : MatFile) (t t2 : ElemT)
    (nm hdrText hdrText2 e : List Nat) (oOk oOk2 : Bool) (id : Int) :
    (m.create t nm oOk hdrText = .ok id m2 →
      m2.create t2 nm oOk2 hdrText2 = .ok id m2) ∧
    (lookupName m.name2id nm = some id → m.write_name t nm e = m.write_id t id e) := by
  constructor
  · intro h
    unfold MatFile.create at h
    cases hr : m.is_ready with
    | false =>
      rw [hr, if_pos (by decide)] at h
      injection h with h1 h2
      subst h1; subst h2
      unfold MatFile.create
      rw [hr, if_pos (by decide)]
    | true =>
      rw [hr, if_neg (by decide)] at h
      cases hl : lookupName m.name2id nm with
      | some i =>
        rw [hl] at h
        injection h with h1 h2
        subst h1; subst h2
        unfold MatFile.create
        rw [hr, if_neg (by decide), hl]
      | none =>
        rw [hl] at h
        cases hinit : Variable.init t nm oOk hdrText with
        | ub => rw [hinit] at h; simp at h
        | mk v =>
          rw [hinit] at h
          injection h with h1 h2
          subst h1; subst h2
          unfold MatFile.create
          simp only []
          rw [if_neg (by decide), lookupName_append _ _ _ hl]
  · intro h
    unfold MatFile.write_name MatFile.write_id
    cases hr : m.is_ready with
    | false => rfl
    | true => rw [h]; rfl

/-- C8 witness: a char variable registered twice (the second time with the
double kind and a failing fopen environment) keeps handle 0 and the same
registry; the write by name equals the write by handle. -/
theorem c8_name_and_handle_agree_witness :
    (m8b.create (.scalar .f64) cName false [] = .ok 0 m8b) ∧
    (m8b.write_name (.scalar .i8) cName [97] = m8b.write_id (.scalar .i8) 0 [97]) :=
  ⟨(c8_name_and_handle_agree m8a m8b (.scalar .i8) (.scalar .f64) cName [] [] [97]
      true false 0).1 rfl,
   (c8_name_and_handle_agree m8b m8b (.scalar .i8) (.scalar .f64) cName [] [] [97]
      true false 0).2 rfl⟩

/-- C5 amended: after N successful single-element writes to a fresh
encoder the 4 byte dimension count field holds N mod 2 to the 32 and the
4 byte payload length field holds N times the element size mod 2 to the
32 (the full 8 bytes stored at the dimension patch point hold N mod 2 to
the 64); the claimed exact equality holds whenever the values fit in the
4 byte fields. -/
theorem c5_count_fields_amended (k : ElemKind) (nm hdrText : List Nat)
    (es : List (List Nat))
    (hlen : ∀ e ∈ es, e.length = sizeofT (.scalar k)) (hne : 1 ≤ es.length) :
    writesSucceed k nm hdrText es = some true ∧
    ∃ v s, afterWrites k nm hdrText es = some v ∧ v.fp = some s ∧
      readLE s.data dim_tag_offset 4 = es.length % 2 ^ 32 ∧
      readLE s.data dim_tag_offset 8 = es.length % 2 ^ 64 ∧
      readLE s.data v.re_tag_offset 4 =
        es.length * sizeofT (.scalar k) % 2 ^ 32 := by
  obtain ⟨hsucc, v, s, hv, hfp, hro, hlen2, hA, hB, hC⟩ :=
    after_writes_spec k nm hdrText es hlen hne
  refine ⟨hsucc, v, s, hv, hfp, ?_, ?_, ?_⟩
  · have h4 := readLE_matches 4 8 es.length 164 s.data (by omega)
      (fun j hj => hB j (by omega))
    rw [show dim_tag_offset = 164 from rfl, h4]
    norm_num
  · have h8 := readLE_matches 8 8 es.length 164 s.data (by omega) hB
    rw [show dim_tag_offset = 164 from rfl, h8]
    norm_num
  · have h4 := readLE_matches 4 8 (es.length * sizeofT (.scalar k))
      (180 + roundUp8 nm.length) s.data (by omega) hC
    rw [hro, h4]
    norm_num

/-- C5 witness for the amended statement: two int writes. -/
theorem c5_count_fields_amended_witness :
    (∀ e ∈ [[1, 2, 3, 4], [5, 6, 7, 8]],
      (e : List Nat).length = sizeofT (.scalar ElemKind.i32)) ∧
    1 ≤ ([[1, 2, 3, 4], [5, 6, 7, 8]] : List (List Nat)).length ∧
    (writesSucceed .i32 cName [] [[1, 2, 3, 4], [5, 6, 7, 8]] = some true ∧
      ∃ v s, afterWrites .i32 cName [] [[1, 2, 3, 4], [5, 6, 7, 8]] = some v ∧
        v.fp = some s ∧
        readLE s.data dim_tag_offset 4 = 2 % 2 ^ 32 ∧
        readLE s.data dim_tag_offset 8 = 2 % 2 ^ 64 ∧
        readLE s.data v.re_tag_offset 4 = 2 * sizeofT (.scalar ElemKind.i32) % 2 ^ 32) :=
  ⟨by decide, by decide,
   c5_count_fields_amended .i32 cName [] [[1, 2, 3, 4], [5, 6, 7, 8]]
     (by decide) (by decide)⟩

/-- C5 counterexample to the claim as stated: after 2 to the 32 successful
char writes the 4 byte dimension count field decodes to 0, not to the
element count. -/
theorem c5_counterexample :
    ((afterWrites .i8 cName [] (List.replicate (2 ^ 32) [0])).bind dimFieldOf) =
      some 0 ∧ (0 : Nat) ≠ 2 ^ 32 := by
  obtain ⟨hsucc, v, s, hv, hfp, hro, hlen2, hA, hB, hC⟩ :=
    after_writes_spec .i8 cName [] (List.replicate (2 ^ 32) [0])
      (fun e he => by rw [List.eq_of_mem_replicate he]; rfl)
      (by rw [List.length_replicate]; omega)
  constructor
  · rw [hv]
    show dimFieldOf v = some 0
    unfold dimFieldOf
    rw [hfp]
    show some (readLE s.data dim_tag_offset 4) = some 0
    have h4 := readLE_matches 4 8 (List.replicate (2 ^ 32) ([0] : List Nat)).length
      164 s.data (by omega) (fun j hj => hB j (by omega))
    rw [show dim_tag_offset = 164 from rfl, h4, List.length_replicate]
    norm_num
  · norm_num

/-- C6 amended: after every successful write the outer mat-tag total
length field holds 16 + 16 + 8 + (name length rounded up to a multiple of
8) + 8 + payloadBytes with the sum rounded up to the next multiple of 8
(equivalently, with the payload term rounded up), reduced mod 2 to the
32; the claim stated the payload term unrounded. -/
theorem c6_mat_tag_amended (k : ElemKind) (nm hdrText : List Nat)
    (es : List (List Nat))
    (hlen : ∀ e ∈ es, e.length = sizeofT (.scalar k)) (hne : 1 ≤ es.length) :
    writesSucceed k nm hdrText es = some true ∧
    ∃ v s, afterWrites k nm hdrText es = some v ∧ v.fp = some s ∧
      readLE s.data mat_tag_offset 4 =
        roundUp8 (16 + 16 + 8 + roundUp8 nm.length + 8 +
          es.length * sizeofT (.scalar k)) % 2 ^ 32 := by
  obtain ⟨hsucc, v, s, hv, hfp, hro, hlen2, hA, hB, hC⟩ :=
    after_writes_spec k nm hdrText es hlen hne
  refine ⟨hsucc, v, s, hv, hfp, ?_⟩
  have h4 := readLE_matches 4 8
    (roundUp8 (48 + roundUp8 nm.length + es.length * sizeofT (.scalar k)))
    132 s.data (by omega) (fun j hj => hA j (by omega))
  rw [show mat_tag_offset = 132 from rfl, h4,
    show 16 + 16 + 8 + roundUp8 nm.length + 8 + es.length * sizeofT (.scalar k) =
      48 + roundUp8 nm.length + es.length * sizeofT (.scalar k) from by omega]
  norm_num

/-- C6 witness for the amended statement: two int writes to a variable
named c give a stored total length of 72. -/
theorem c6_mat_tag_amended_witness :
    (∀ e ∈ [[1, 2, 3, 4], [5, 6, 7, 8]],
      (e : List Nat).length = sizeofT (.scalar ElemKind.i32)) ∧
    1 ≤ ([[1, 2, 3, 4], [5, 6, 7, 8]] : List (List Nat)).length ∧
    (writesSucceed .i32 cName [] [[1, 2, 3, 4], [5, 6, 7, 8]] = some true ∧
      ∃ v s, afterWrites .i32 cName [] [[1, 2, 3, 4], [5, 6, 7, 8]] = some v ∧
        v.fp = some s ∧
        readLE s.data mat_tag_offset 4 =
          roundUp8 (16 + 16 + 8 + roundUp8 cName.length + 8 +
            2 * sizeofT (.scalar ElemKind.i32)) % 2 ^ 32) :=
  ⟨by decide, by decide,
   c6_mat_tag_amended .i32 cName [] [[1, 2, 3, 4], [5, 6, 7, 8]]
     (by decide) (by decide)⟩

set_option maxRecDepth 4000 in
/-- C6 counterexample to the claim as stated: one successful char write to
a variable named c stores 64 in the outer total length field, while the
unrounded sum of the claim is 16 + 16 + 8 + 8 + 8 + 1 = 57. -/
theorem c6_counterexample :
    ((Variable.init (.scalar .i8) cName true []).varOf).map
        (fun v0 => ((v0.write [97]).1,
          ((v0.write [97]).2.fp).map (fun s => readLE s.data mat_tag_offset 4))) =
      some (true, some 64) ∧
    (64 : Nat) ≠ 16 + 16 + 8 + 8 + 8 + 1 :=
  ⟨rfl, by norm_num⟩

/-- C7: after any successful write sequence the file size measured from
the start of the metadata block at offset 128 is a multiple of 8,
whatever the element kind, name and number of writes. -/
theorem c7_alignment (k : ElemKind) (nm hdrText : List Nat)
    (es : List (List Nat))
    (hlen : ∀ e ∈ es, e.length = sizeofT (.scalar k)) (hne : 1 ≤ es.length) :
    writesSucceed k nm hdrText es = some true ∧
    ∃ v s, afterWrites k nm hdrText es = some v ∧ v.fp = some s ∧
      128 ≤ s.len ∧ (s.len - 128) % 8 = 0 := by
  obtain ⟨hsucc, v, s, hv, hfp, hro, hlen2, hA, hB, hC⟩ :=
    after_writes_spec k nm hdrText es hlen hne
  have h1 := roundUp8_facts nm.length
  have h2 := roundUp8_facts (es.length * sizeofT (.scalar k))
  exact ⟨hsucc, v, s, hv, hfp, by omega, by omega⟩

/-- C7 witness: one char write. -/
theorem c7_alignment_witness :
    (∀ e ∈ [[7]], (e : List Nat).length = sizeofT (.scalar ElemKind.i8)) ∧
    1 ≤ ([[7]] : List (List Nat)).length ∧
    (writesSucceed .i8 cName [] [[7]] = some true ∧
      ∃ v s, afterWrites .i8 cName [] [[7]] = some v ∧ v.fp = some s ∧
        128 ≤ s.len ∧ (s.len - 128) % 8 = 0) :=
  ⟨by decide, by decide, c7_alignment .i8 cName [] [[7]] (by decide) (by decide)⟩

end MatFileModel
